import Mathlib

/-
Verification development for the VUE-SSE repository.

The repository contains two implementations of a shared SSE connection
multiplexer:

* `src/src/composables/useSSE.ts` — the `SSEConnectionManager` class
  (single-tab manager variant): per-route `EventSource` handles, exponential
  backoff bookkeeping (`reconnectDelays`, `maxReconnectDelay`), a
  `maxConnections` guard, and a reactive `connectionStatuses` record.

* `src/public/sharedWorker.js` — the SharedWorker registry (multi-tab
  variant): a route-keyed connection map holding `{eventSource, timeout}`
  records, a 15-second heartbeat timeout, a fixed 5-second reconnect delay,
  and broadcast messages (`SSE_OPEN`/`SSE_MESSAGE`/`SSE_ERROR`/
  `SSE_DISCONNECTED`/`SSE_RECONNECT`) fanned out to client ports.

* `src/node-sse-server/src/index.ts` (second segment) — the SharedWorker
  client composable `useSSE` that routes worker broadcasts to consumer
  handlers and tracks per-route connection statuses.

The shallow embedding below mirrors each of these as explicit state-passing
functions.  JavaScript `Map`s become insertion-ordered association lists
(`SMap`), `EventSource` objects become records carrying an id, a route and a
`readyState`, and `setTimeout` timers become entries in explicit pending-timer
lists (heartbeat timers and pending reconnect callbacks), fired by explicit
events of a step function.  Falsy-`||` defaulting of JavaScript is modelled by
`jsOrNat` / `jsOrInt` (the value `0` falls through to the default, exactly as
in JavaScript).
-/

/-- Insertion-ordered string-keyed map, mirroring a JavaScript `Map`. -/
abbrev SMap (α : Type) := List (String × α)

namespace SMap

variable {α : Type}

/-- `Map.prototype.get`: first binding for the key, if any. -/
def get : SMap α → String → Option α
  | [], _ => none
  | (k', v) :: rest, k => if k' = k then some v else get rest k

/-- `Map.prototype.set`: replace the binding in place if the key is present,
otherwise append a new binding (JavaScript `Map` insertion order). -/
def set : SMap α → String → α → SMap α
  | [], k, v => [(k, v)]
  | (k', v') :: rest, k, v => if k' = k then (k, v) :: rest else (k', v') :: set rest k v

/-- `Map.prototype.delete`: remove the binding(s) for the key. -/
def del (m : SMap α) (k : String) : SMap α := m.filter (fun p => p.1 != k)

/-- `Map.prototype.size`. -/
def size (m : SMap α) : Nat := m.length

/-- `Map.prototype.keys` (iteration order). -/
def keys (m : SMap α) : List String := m.map (fun p => p.1)

theorem get_set_self (m : SMap α) (k : String) (v : α) : (m.set k v).get k = some v := by
  induction m with
  | nil => simp [set, get]
  | cons p rest ih =>
    by_cases h : p.1 = k <;> simp [set, get, h, ih]

theorem get_set_ne (m : SMap α) (k k' : String) (v : α) (h : k' ≠ k) :
    (m.set k v).get k' = m.get k' := by
  induction m with
  | nil => simp [set, get, Ne.symm h]
  | cons p rest ih =>
    by_cases hp : p.1 = k
    · simp [set, get, hp, Ne.symm h]
    · by_cases hp' : p.1 = k' <;> simp [set, get, hp, hp', ih, h]

theorem length_set_absent (m : SMap α) (k : String) (v : α) (h : m.get k = none) :
    (m.set k v).length = m.length + 1 := by
  induction m with
  | nil => simp [set]
  | cons p rest ih =>
    by_cases hp : p.1 = k
    · simp [get, hp] at h
    · simp [get, hp] at h
      simp [set, hp, ih h]

theorem length_set_present (m : SMap α) (k : String) (v w : α) (h : m.get k = some w) :
    (m.set k v).length = m.length := by
  induction m with
  | nil => simp [get] at h
  | cons p rest ih =>
    by_cases hp : p.1 = k
    · simp [set, hp]
    · simp [get, hp] at h
      simp [set, hp, ih h]

theorem length_del_le (m : SMap α) (k : String) : (m.del k).length ≤ m.length :=
  List.length_filter_le _ _

theorem get_del_self (m : SMap α) (k : String) : (m.del k).get k = none := by
  induction m with
  | nil => simp [del, get]
  | cons p rest ih =>
    by_cases hp : p.1 = k
    · simpa [del, List.filter_cons, hp] using ih
    · simpa [del, List.filter_cons, hp, get] using ih

theorem get_del_ne (m : SMap α) (k k' : String) (h : k' ≠ k) :
    (m.del k).get k' = m.get k' := by
  induction m with
  | nil => simp [del, get]
  | cons p rest ih =>
    simp only [del] at ih
    by_cases hp : p.1 = k
    · simpa [del, List.filter_cons, get, hp, Ne.symm h] using ih
    · by_cases hp' : p.1 = k' <;> simp [del, List.filter_cons, get, hp, hp', ih, h]

theorem mem_del {m : SMap α} {k : String} {p : String × α} :
    p ∈ m.del k ↔ p ∈ m ∧ p.1 ≠ k := by
  simp [del, List.mem_filter]

theorem get_eq_none_iff (m : SMap α) (k : String) :
    m.get k = none ↔ ∀ p ∈ m, p.1 ≠ k := by
  induction m with
  | nil => simp [get]
  | cons p rest ih =>
    by_cases hp : p.1 = k
    · simp [get, hp]
    · simp only [get, if_neg hp, ih, List.mem_cons]
      constructor
      · intro h q hq
        rcases hq with hq | hq
        · subst hq; exact hp
        · exact h q hq
      · intro h q hq; exact h q (Or.inr hq)

theorem mem_keys_of_mem {m : SMap α} {p : String × α} (h : p ∈ m) : p.1 ∈ m.keys :=
  List.mem_map.2 ⟨p, h, rfl⟩

end SMap

/-- JavaScript `x || d` for a possibly-undefined number `x` (`0` is falsy). -/
def jsOrNat (x : Option Nat) (d : Nat) : Nat :=
  match x with
  | none => d
  | some 0 => d
  | some (n + 1) => n + 1

/-- JavaScript `x || d` for a possibly-undefined integer (`0` is falsy). -/
def jsOrInt (x : Option Int) (d : Int) : Int :=
  match x with
  | none => d
  | some v => if v = 0 then d else v

/-- One `EventSource` object: its creation id, target route, and
`readyState` (`0` = CONNECTING, `1` = OPEN, `2` = CLOSED). -/
structure ESource where
  sid : Nat
  route : String
  readyState : Nat
deriving DecidableEq

/-- `EventSource.close()` applied to the source with the given id. -/
def closeSource (sid : Nat) (ss : List ESource) : List ESource :=
  ss.map (fun s => if s.sid = sid then { s with readyState := 2 } else s)

/-- The transport signalling `open` on the source with the given id. -/
def openSource (sid : Nat) (ss : List ESource) : List ESource :=
  ss.map (fun s => if s.sid = sid then { s with readyState := 1 } else s)

theorem closeSource_idem (sid : Nat) (ss : List ESource) :
    closeSource sid (closeSource sid ss) = closeSource sid ss := by
  induction ss with
  | nil => rfl
  | cons s rest ih =>
    simp only [closeSource, List.map_cons] at ih ⊢
    by_cases h : s.sid = sid <;> simp [h, ih]

/-- The `ConnectionStatus` record of `src/src/types/sse.ts`. -/
structure ConnectionStatus where
  connected : Bool
  reconnectDelay : Nat
  readyState : Int
deriving DecidableEq

/-- The spec's status invariant: `reconnectDelay > 0 ⇔ connected == false`
(also the documented contract of the `reconnectDelay` field in
`src/src/types/sse.ts`: "0 if connected"). -/
def statusInvariant (s : ConnectionStatus) : Prop :=
  s.reconnectDelay > 0 ↔ s.connected = false

/-! ## SharedWorker registry (`src/public/sharedWorker.js`)

The worker keeps `connections : Map route ↦ { eventSource, timeout }`, arms a
15-second heartbeat timeout on every `open`/`message`, reconnects 5 seconds
after an error or stall, and broadcasts typed messages to every client port.
Timers are embedded explicitly: armed heartbeat timeouts live in `hbTimers`
(each remembering the `eventSource` captured by its `setTimeout` closure), and
scheduled reconnect callbacks live in `pendingReconnects`; neither list is
implicitly cancelled — only an explicit `clearTimeout` removes an entry. -/

/-- A message broadcast by the worker to every client port
(`broadcastMessage(type, payload)`). -/
inductive BMsg where
  | sseOpen (route : String)
  | sseMessage (route : String) (data : String)
  | sseError (route : String)
  | sseDisconnected (route : String)
  | sseReconnect (route : String)
deriving DecidableEq

/-- One armed heartbeat timeout (`connection.timeout = setTimeout(..., 15000)`):
its timer id, the route, the `eventSource` captured by the callback closure,
and the duration passed to `setTimeout`. -/
structure HbTimer where
  tid : Nat
  route : String
  sid : Nat
  duration : Nat
deriving DecidableEq

/-- A `connections` map entry: `{ eventSource, timeout }`. -/
structure WConn where
  sid : Nat
  timeout : Option Nat
deriving DecidableEq

/-- `clearTimeout` on the heartbeat-timer pool. -/
def clearHbTimeout (tid : Nat) (ts : List HbTimer) : List HbTimer :=
  ts.filter (fun t => t.tid != tid)

theorem clearHbTimeout_idem (tid : Nat) (ts : List HbTimer) :
    clearHbTimeout tid (clearHbTimeout tid ts) = clearHbTimeout tid ts := by
  simp [clearHbTimeout, List.filter_filter]

/-- The whole state of the SharedWorker: the route-keyed connection map, every
`EventSource` ever constructed (closed ones keep `readyState = 2`), the pools
of armed heartbeat timeouts and scheduled reconnect callbacks, and the log of
broadcasts sent to the client ports. -/
structure Worker where
  connections : SMap WConn
  sources : List ESource
  nextSid : Nat
  hbTimers : List HbTimer
  nextTid : Nat
  pendingReconnects : List (String × Nat)
  broadcasts : List BMsg
deriving DecidableEq

namespace Worker

/-- The state of the worker before any client message. -/
def init : Worker := ⟨[], [], 0, [], 0, [], []⟩

/-- Look up an `EventSource` object by id. -/
def getSource (w : Worker) (sid : Nat) : Option ESource :=
  w.sources.find? (fun s => s.sid == sid)

/-- `createEventSource(route)`: construct a fresh `EventSource` and store
`{ eventSource, timeout: null }` under the route — overwriting any record
already present, without closing its source. -/
def createEventSource (route : String) (w : Worker) : Worker :=
  { w with
    sources := w.sources ++ [⟨w.nextSid, route, 0⟩]
    nextSid := w.nextSid + 1
    connections := w.connections.set route ⟨w.nextSid, none⟩ }

/-- `resetHeartbeatTimeout()` as closed over `route` and the `eventSource`
with id `sid`: if a record exists for the route, clear its current timeout and
arm a fresh 15000 ms one whose callback will close `sid`. -/
def resetHeartbeatTimeout (route : String) (sid : Nat) (w : Worker) : Worker :=
  match w.connections.get route with
  | none => w
  | some conn =>
    let ts := match conn.timeout with
      | some tid => clearHbTimeout tid w.hbTimers
      | none => w.hbTimers
    { w with
      hbTimers := ts ++ [⟨w.nextTid, route, sid, 15000⟩]
      nextTid := w.nextTid + 1
      connections := w.connections.set route ⟨conn.sid, some w.nextTid⟩ }

/-- `disconnectRoute(route)`: close the record's source, clear its heartbeat
timeout, delete the record and broadcast `SSE_DISCONNECTED`; no-op when the
route has no record. -/
def disconnectRoute (route : String) (w : Worker) : Worker :=
  match w.connections.get route with
  | none => w
  | some conn =>
    let w1 := { w with sources := closeSource conn.sid w.sources }
    let w2 := match conn.timeout with
      | some tid => { w1 with hbTimers := clearHbTimeout tid w1.hbTimers }
      | none => w1
    { w2 with
      connections := w2.connections.del route
      broadcasts := w2.broadcasts ++ [.sseDisconnected route] }

/-- `disconnectAll()`: `connections.forEach((_, route) => disconnectRoute(route))`. -/
def disconnectAll (w : Worker) : Worker :=
  w.connections.keys.foldl (fun acc r => acc.disconnectRoute r) w

/-- `handleReconnect(route)`: tear the route down, then schedule
`setTimeout(() => { broadcast SSE_RECONNECT; createEventSource(route) }, 5000)`.
The timer handle is not stored anywhere. -/
def handleReconnect (route : String) (w : Worker) : Worker :=
  let w1 := w.disconnectRoute route
  { w1 with pendingReconnects := w1.pendingReconnects ++ [(route, 5000)] }

/-- The discrete events the worker reacts to: client port messages, transport
callbacks of a live `EventSource`, and timer firings. -/
inductive Ev where
  | msgConnect (route : String)
  | msgDisconnect (route : String)
  | msgDisconnectAll
  | esOpen (sid : Nat)
  | esMessage (sid : Nat) (data : String)
  | esError (sid : Nat)
  | hbFire (tid : Nat)
  | reconnectFire (i : Nat)
deriving DecidableEq

/-- One event-loop turn of the worker. `CONNECT` creates a source only when no
record exists; `open`/`message` re-arm the heartbeat and broadcast;
`error` broadcasts `SSE_ERROR` then hands off to `handleReconnect`; a
heartbeat firing closes the captured source and hands off to
`handleReconnect`; a scheduled reconnect broadcasts `SSE_RECONNECT` and calls
`createEventSource` unconditionally. -/
def step (w : Worker) (e : Ev) : Worker :=
  match e with
  | .msgConnect route =>
    if (w.connections.get route).isSome then w else w.createEventSource route
  | .msgDisconnect route => w.disconnectRoute route
  | .msgDisconnectAll => w.disconnectAll
  | .esOpen sid =>
    match w.getSource sid with
    | some s =>
      if s.readyState = 0 then
        let w1 := { w with sources := openSource sid w.sources }
        let w2 := { w1 with broadcasts := w1.broadcasts ++ [BMsg.sseOpen s.route] }
        w2.resetHeartbeatTimeout s.route sid
      else w
    | none => w
  | .esMessage sid data =>
    match w.getSource sid with
    | some s =>
      if s.readyState = 1 then
        let w1 := w.resetHeartbeatTimeout s.route sid
        { w1 with broadcasts := w1.broadcasts ++ [BMsg.sseMessage s.route data] }
      else w
    | none => w
  | .esError sid =>
    match w.getSource sid with
    | some s =>
      if s.readyState ≠ 2 then
        let w1 := { w with broadcasts := w.broadcasts ++ [BMsg.sseError s.route] }
        w1.handleReconnect s.route
      else w
    | none => w
  | .hbFire tid =>
    match w.hbTimers.find? (fun t => t.tid == tid) with
    | some t =>
      let w1 := { w with hbTimers := clearHbTimeout tid w.hbTimers }
      let w2 := { w1 with sources := closeSource t.sid w1.sources }
      w2.handleReconnect t.route
    | none => w
  | .reconnectFire i =>
    match w.pendingReconnects[i]? with
    | some (route, _) =>
      let w1 := { w with pendingReconnects := w.pendingReconnects.eraseIdx i }
      let w2 := { w1 with broadcasts := w1.broadcasts ++ [BMsg.sseReconnect route] }
      w2.createEventSource route
    | none => w

/-- Run the worker from `init` over a list of events. -/
def run (evs : List Ev) : Worker := evs.foldl step init

/-- Number of live (not yet closed) `EventSource` objects targeting a route. -/
def liveCount (w : Worker) (route : String) : Nat :=
  (w.sources.filter (fun s => s.route == route && s.readyState != 2)).length

end Worker

/-! ## `SSEConnectionManager` (`src/src/composables/useSSE.ts`)

The single-tab manager variant.  `connections` maps a route to its
`EventSource`; `reconnectDelays` carries the backoff state; statuses are
published into the reactive `connectionStatuses` record.  `handleError`
schedules `setTimeout(() => this.connect(route, handlers), currentDelay)`
without keeping the timer handle, so scheduled reconnect callbacks accumulate
in `pendingReconnects` and are never cancelled; `scheduledDelays` logs, in
order, every delay passed to `setTimeout`.  A failing `new EventSource(route)`
constructor is modelled by `connectTry` answering `Except.error` when the
route is rejected by the ambient `valid` predicate; `connect` installs the
`try`/`catch` around it exactly as the source does. -/

/-- State of one `SSEConnectionManager` instance (constructor defaults:
`initialDelay = 5000`, `maxDelay = 60000`, `maxConnections = 6`). -/
structure SSEConnectionManager where
  initialDelay : Nat
  maxReconnectDelay : Nat
  maxConnections : Nat
  connections : SMap Nat
  reconnectDelays : SMap Nat
  connectionStatuses : SMap ConnectionStatus
  sources : List ESource
  nextSid : Nat
  pendingReconnects : List (String × Nat)
  scheduledDelays : List Nat
deriving DecidableEq

namespace SSEConnectionManager

/-- A freshly constructed manager with the default configuration. -/
def init : SSEConnectionManager := ⟨5000, 60000, 6, [], [], [], [], 0, [], []⟩

/-- The `readyState` of the `EventSource` with the given id, if it exists. -/
def sourceState (m : SSEConnectionManager) (sid : Nat) : Option Nat :=
  (m.sources.find? (fun s => s.sid == sid)).map (fun s => s.readyState)

/-- `updateConnectionStatus(route)`:
`connected = (eventSource?.readyState === EventSource.OPEN)`,
`reconnectDelay = reconnectDelays.get(route) || 0`,
`readyState = eventSource?.readyState || -1` (JavaScript falsy `||`, so
`CONNECTING = 0` also yields `-1`). -/
def updateConnectionStatus (route : String) (m : SSEConnectionManager) : SSEConnectionManager :=
  let rs : Option Nat := (m.connections.get route).bind (fun sid => m.sourceState sid)
  let status : ConnectionStatus :=
    { connected := rs == some 1
      reconnectDelay := jsOrNat (m.reconnectDelays.get route) 0
      readyState := jsOrInt (rs.map (fun n => (n : Int))) (-1) }
  { m with connectionStatuses := m.connectionStatuses.set route status }

/-- `handleError(route, handlers)`: if a connection is recorded, close and
delete it, schedule `connect` after `reconnectDelays.get(route) ||
initialDelay` (the handle is never stored), double the stored delay capped at
`maxReconnectDelay`, and republish the status. -/
def handleError (route : String) (m : SSEConnectionManager) : SSEConnectionManager :=
  match m.connections.get route with
  | none => m
  | some sid =>
    let m1 := { m with sources := closeSource sid m.sources }
    let m2 := { m1 with connections := m1.connections.del route }
    let currentDelay := jsOrNat (m2.reconnectDelays.get route) m2.initialDelay
    let m3 := { m2 with
      pendingReconnects := m2.pendingReconnects ++ [(route, currentDelay)]
      scheduledDelays := m2.scheduledDelays ++ [currentDelay] }
    let m4 := { m3 with
      reconnectDelays := m3.reconnectDelays.set route (min (currentDelay * 2) m3.maxReconnectDelay) }
    m4.updateConnectionStatus route

/-- The `try` block of `connect`: `new EventSource(route)` (which throws for
a route rejected by `valid`, before any state is mutated), registration of
the source and of the initial reconnect delay, and the status update. -/
def connectTry (valid : String → Bool) (route : String) (m : SSEConnectionManager) :
    Except String SSEConnectionManager :=
  if valid route then
    let sid := m.nextSid
    let m1 := { m with sources := m.sources ++ [ESource.mk sid route 0], nextSid := sid + 1 }
    let m2 := { m1 with connections := m1.connections.set route sid }
    let m3 := { m2 with reconnectDelays := m2.reconnectDelays.set route m2.initialDelay }
    Except.ok (m3.updateConnectionStatus route)
  else Except.error "EventSource construction failed"

/-- `connect(route, handlers)`: give up silently when
`connections.size >= maxConnections`, return when a record already exists,
otherwise run the `try` block with `catch { this.handleError(route,
handlers) }`. -/
def connect (valid : String → Bool) (route : String) (m : SSEConnectionManager) :
    SSEConnectionManager :=
  if m.connections.size ≥ m.maxConnections then m
  else if (m.connections.get route).isSome then m
  else
    match connectTry valid route m with
    | .ok m' => m'
    | .error _ => m.handleError route

/-- `disconnect(route)`: close the source, drop the connection, its delay
state and its status entry; no-op when the route has no record. -/
def disconnect (route : String) (m : SSEConnectionManager) : SSEConnectionManager :=
  match m.connections.get route with
  | none => m
  | some sid =>
    let m1 := { m with sources := closeSource sid m.sources }
    { m1 with
      connections := m1.connections.del route
      reconnectDelays := m1.reconnectDelays.del route
      connectionStatuses := m1.connectionStatuses.del route }

/-- `disconnectAll()`: `Array.from(connections.keys()).forEach(disconnect)`. -/
def disconnectAll (m : SSEConnectionManager) : SSEConnectionManager :=
  m.connections.keys.foldl (fun acc r => acc.disconnect r) m

/-- Discrete events of the manager: consumer calls, transport callbacks of
the route's current source, and scheduled reconnect callbacks firing. -/
inductive Ev where
  | connect (route : String)
  | srcOpen (route : String)
  | srcError (route : String)
  | reconnectFire (i : Nat)
  | disconnect (route : String)
  | disconnectAll
deriving DecidableEq

/-- One event-loop turn of the manager.  `srcOpen` is the `onopen` handler:
the source moves to `OPEN`, the delay is reset to `initialDelay` and the
status republished.  `srcError` is the `onerror` handler (`handleError`).  A
firing reconnect callback re-enters `connect`. -/
def step (valid : String → Bool) (m : SSEConnectionManager) (e : Ev) : SSEConnectionManager :=
  match e with
  | .connect route => connect valid route m
  | .srcOpen route =>
    match m.connections.get route with
    | some sid =>
      if m.sourceState sid = some 0 then
        let m1 := { m with sources := openSource sid m.sources }
        let m2 := { m1 with reconnectDelays := m1.reconnectDelays.set route m1.initialDelay }
        m2.updateConnectionStatus route
      else m
    | none => m
  | .srcError route => m.handleError route
  | .reconnectFire i =>
    match m.pendingReconnects[i]? with
    | some (route, _) =>
      connect valid route { m with pendingReconnects := m.pendingReconnects.eraseIdx i }
    | none => m
  | .disconnect route => m.disconnect route
  | .disconnectAll => m.disconnectAll

/-- Run a fresh manager over a list of events. -/
def run (valid : String → Bool) (evs : List Ev) : SSEConnectionManager :=
  evs.foldl (step valid) init

end SSEConnectionManager

/-! ## SharedWorker client composable (`src/node-sse-server/src/index.ts`,
second segment: the `useSSE` composable backed by the SharedWorker)

Each consumer context keeps `messageHandlers : Map route ↦ handler` and a
`connectionStatuses` record, reacts to worker broadcasts in
`worker.port.onmessage`, and talks back to the worker through `postMessage`
envelopes.  A handler is either a bare function (catch-all) or an object with
optional `message`/`open`/`error`/`close` methods; `HandlerSpec` records
which of the four methods the object carries.  `messageHandlers` can also
hold the JavaScript value `undefined` (via `connect(route,
messageHandlers.get(route)!)` on `SSE_RECONNECT` for an unknown route), so
the stored value type is `Option HandlerSpec`. -/

/-- A consumer's registered handler argument. -/
inductive HandlerSpec where
  | single
  | hset (hasMessage hasOpen hasError hasClose : Bool)
deriving DecidableEq

/-- An observable handler invocation performed while dispatching one worker
broadcast. -/
inductive Invocation where
  | catchAll (data : String)
  | named (eventName : String) (data : String)
deriving DecidableEq

/-- A `postMessage` envelope sent from a consumer context to the worker. -/
inductive OutMsg where
  | connectReq (route : String)
  | disconnectReq (route : String)
  | disconnectAllReq
deriving DecidableEq

/-- Per-consumer-context state of the composable. -/
structure WorkerClientState where
  messageHandlers : SMap (Option HandlerSpec)
  connectionStatuses : SMap ConnectionStatus
deriving DecidableEq

namespace WorkerClient

/-- A consumer context before any call. -/
def init : WorkerClientState := ⟨[], []⟩

/-- `updateConnectionStatus(route, connected)`: build
`{connected, reconnectDelay: connected ? 0 : 5000, readyState: connected ?
OPEN : CLOSED}` and store it when it differs from the current one. -/
def updateConnectionStatus (route : String) (connected : Bool) (t : WorkerClientState) :
    WorkerClientState :=
  let newStatus : ConnectionStatus :=
    { connected := connected
      reconnectDelay := if connected then 0 else 5000
      readyState := if connected then 1 else 2 }
  if t.connectionStatuses.get route = some newStatus then t
  else { t with connectionStatuses := t.connectionStatuses.set route newStatus }

/-- `connect(route, handlers)`: store the handlers for the route and post a
`CONNECT` envelope. -/
def connect (route : String) (h : Option HandlerSpec) (t : WorkerClientState) :
    WorkerClientState × List OutMsg :=
  ({ t with messageHandlers := t.messageHandlers.set route h }, [.connectReq route])

/-- `disconnect(route)`: remove the route's handlers and post `DISCONNECT`. -/
def disconnect (route : String) (t : WorkerClientState) :
    WorkerClientState × List OutMsg :=
  ({ t with messageHandlers := t.messageHandlers.del route }, [.disconnectReq route])

/-- `disconnectAll()`: clear every handler and post `DISCONNECT_ALL`. -/
def disconnectAll (t : WorkerClientState) : WorkerClientState × List OutMsg :=
  ({ t with messageHandlers := [] }, [.disconnectAllReq])

/-- `worker.port.onmessage`: dispatch one broadcast from the worker.  Returns
the updated state, the handler invocations performed, and the envelopes
posted back to the worker.  `SSE_MESSAGE` consults the stored handler
(`if (handler)` — a stored `undefined` is falsy): a bare function is invoked
with the payload, an object handler only through its `message` method when
present.  `SSE_OPEN`, `SSE_ERROR` and `SSE_DISCONNECTED` only update the
status.  `SSE_RECONNECT` updates the status and re-enters `connect` with
`messageHandlers.get(route)!`. -/
def onWorkerMessage (msg : BMsg) (t : WorkerClientState) :
    WorkerClientState × List Invocation × List OutMsg :=
  match msg with
  | .sseMessage route data =>
    match t.messageHandlers.get route with
    | some (some .single) => (t, [.catchAll data], [])
    | some (some (.hset hasMessage _ _ _)) =>
      (t, if hasMessage then [.named "message" data] else [], [])
    | some none => (t, [], [])
    | none => (t, [], [])
  | .sseOpen route => (updateConnectionStatus route true t, [], [])
  | .sseError route => (updateConnectionStatus route false t, [], [])
  | .sseDisconnected route => (updateConnectionStatus route false t, [], [])
  | .sseReconnect route =>
    let t1 := updateConnectionStatus route false t
    let h : Option HandlerSpec := (t1.messageHandlers.get route).join
    let r := connect route h t1
    (r.1, [], r.2)

end WorkerClient

/-! ## Claim theorems -/

/-- C1.  The second half of the claim holds: a `CONNECT` for a route that
already has a record is a no-op.  The first half fails on the worker: its
reconnect callback calls `createEventSource(route)` unconditionally
(bypassing the `connections.has(route)` guard of the `CONNECT` case and
overwriting the record without closing its source), so after
`CONNECT /a`, a transport error (which schedules a reconnect), a fresh
`CONNECT /a`, and the scheduled reconnect firing, two live `EventSource`
streams for `/a` exist at once. -/
theorem worker_duplicate_connection_C1 :
    (Worker.run [.msgConnect "/a", .esError 0, .msgConnect "/a", .reconnectFire 0]).liveCount "/a" = 2 ∧
    (Worker.run [.msgConnect "/a", .esError 0, .msgConnect "/a", .reconnectFire 0]).sources.map
      (fun s => (s.sid, s.readyState)) = [(0, 2), (1, 0), (2, 0)] ∧
    Worker.step (Worker.run [.msgConnect "/a"]) (.msgConnect "/a") = Worker.run [.msgConnect "/a"] := by
  refine ⟨by decide, by decide, ?_⟩
  decide

/-- C2.  The claimed backoff sequence 5000 ms, 10000 ms, 20000 ms never
happens: `connect` resets `reconnectDelays` to `initialDelay` on every
attempt (not only on `open`), and after an error the route is deleted from
`connections` so a further error is a no-op until the scheduled `connect`
runs.  Against `/feed` with the default config, three consecutive transport
errors (each separated by the scheduled reconnect actually firing) schedule
the delays 5000 ms, 5000 ms, 5000 ms. -/
theorem manager_backoff_constant_C2 :
    (SSEConnectionManager.run (fun _ => true)
      [.connect "/feed", .srcError "/feed", .reconnectFire 0,
       .srcError "/feed", .reconnectFire 0, .srcError "/feed"]).scheduledDelays
      = [5000, 5000, 5000] ∧
    ([5000, 5000, 5000] : List Nat) ≠ [5000, 10000, 20000] := by
  exact ⟨by decide, by decide⟩

/-- C3 (counterexample).  After `CONNECT /a`, a transport error (which
schedules a reconnect in 5000 ms) and `DISCONNECT_ALL`, the call returns with
zero records — but the pending reconnect timer is still scheduled, and when
it fires it re-creates a connection for the explicitly abandoned route. -/
theorem worker_pending_reconnect_survives_C3_cex :
    (Worker.run [.msgConnect "/a", .esError 0, .msgDisconnectAll]).connections = [] ∧
    (Worker.run [.msgConnect "/a", .esError 0, .msgDisconnectAll]).pendingReconnects
      = [("/a", 5000)] ∧
    (Worker.run [.msgConnect "/a", .esError 0, .msgDisconnectAll,
      .reconnectFire 0]).connections.get "/a" = some ⟨1, none⟩ := by
  exact ⟨by decide, by decide, by decide⟩

/-- C4.  In the `SSEConnectionManager` variant the published status violates
`reconnectDelay > 0 ⇔ connected == false`: on a successful `open` the
`onopen` handler resets the stored delay to `initialDelay = 5000` (not `0`)
and `updateConnectionStatus` publishes it, so after `connect('/x')` followed
by the `open` event the status is `{connected: true, reconnectDelay: 5000,
readyState: 1}`. -/
theorem manager_status_invariant_violation_C4 :
    (SSEConnectionManager.run (fun _ => true)
      [.connect "/x", .srcOpen "/x"]).connectionStatuses.get "/x"
      = some ⟨true, 5000, 1⟩ ∧
    ¬ statusInvariant ⟨true, 5000, 1⟩ := by
  refine ⟨by decide, ?_⟩
  simp [statusInvariant]

/-- C7 (counterexample).  A consumer registered a handler set whose `open`,
`error` and `close` methods are present; dispatching an `SSE_OPEN` broadcast
for its route invokes no handler at all (the adapter's `onmessage` only ever
invokes the `message` method, on `SSE_MESSAGE`), while the claim requires the
named `open` handler to be invoked. -/
theorem client_dispatch_named_handlers_C7_cex :
    (⟨SMap.set [] "/r" (some (.hset false true true true)), []⟩ :
        WorkerClientState).messageHandlers.get "/r"
      = some (some (.hset false true true true)) ∧
    (WorkerClient.onWorkerMessage (.sseOpen "/r")
      ⟨SMap.set [] "/r" (some (.hset false true true true)), []⟩).2.1 = [] ∧
    (WorkerClient.onWorkerMessage (.sseError "/r")
      ⟨SMap.set [] "/r" (some (.hset false true true true)), []⟩).2.1 = [] := by
  exact ⟨by decide, by decide, by decide⟩

/-- C8 (counterexample).  Tabs A and B both connect to `/r` (one shared
worker connection, id 0).  A alone calls `disconnect('/r')`: B still has its
handler set registered, yet the worker closes the shared source and removes
the record — the connection does not stay open for the remaining
subscriber. -/
theorem worker_disconnect_ignores_subscribers_C8_cex :
    (WorkerClient.connect "/r" (some .single) WorkerClient.init).1.messageHandlers.get "/r"
      = some (some .single) ∧
    (Worker.run [.msgConnect "/r", .msgConnect "/r"]).connections.get "/r" = some ⟨0, none⟩ ∧
    (Worker.step (Worker.run [.msgConnect "/r", .msgConnect "/r"])
      (.msgDisconnect "/r")).connections.get "/r" = none ∧
    (Worker.step (Worker.run [.msgConnect "/r", .msgConnect "/r"])
      (.msgDisconnect "/r")).sources.map (fun s => s.readyState) = [2] := by
  exact ⟨by decide, by decide, by decide, by decide⟩

/-- C9 (counterexample).  With `/good` already connected, a `connect` on the
invalid route `/bad` makes the `EventSource` constructor throw inside the
`try` block, and the `catch` swallows it: `connect` returns normally with the
manager state unchanged — no `ConnectionError` reaches the caller (there is
no error return at all), no record is created, and `/good` keeps its
record. -/
theorem manager_invalid_route_swallowed_C9_cex :
    SSEConnectionManager.connectTry (fun r => r == "/good") "/bad"
        (SSEConnectionManager.connect (fun r => r == "/good") "/good" SSEConnectionManager.init)
      = Except.error "EventSource construction failed" ∧
    SSEConnectionManager.connect (fun r => r == "/good") "/bad"
        (SSEConnectionManager.connect (fun r => r == "/good") "/good" SSEConnectionManager.init)
      = SSEConnectionManager.connect (fun r => r == "/good") "/good" SSEConnectionManager.init ∧
    ((SSEConnectionManager.connect (fun r => r == "/good") "/good"
        SSEConnectionManager.init).connections.get "/good").isSome = true := by
  exact ⟨by rfl, by decide, by decide⟩

/-- Sources surviving a `closeSource` with the closed id are closed. -/
theorem readyState_of_mem_closeSource {sid : Nat} {ss : List ESource} {s : ESource}
    (h : s ∈ closeSource sid ss) (hs : s.sid = sid) : s.readyState = 2 := by
  simp only [closeSource, List.mem_map] at h
  obtain ⟨a, _, rfl⟩ := h
  by_cases ha : a.sid = sid
  · simp [ha]
  · rw [if_neg ha] at hs ⊢
    exact absurd hs ha

/-- After `clearTimeout tid`, no armed heartbeat timer carries id `tid`. -/
theorem tid_ne_of_mem_clearHbTimeout {tid : Nat} {ts : List HbTimer} {t : HbTimer}
    (h : t ∈ clearHbTimeout tid ts) : t.tid ≠ tid := by
  simp only [clearHbTimeout, List.mem_filter, bne_iff_ne, ne_eq] at h
  exact h.2

/-- C5.  `disconnectRoute(route)` is a no-op when no record exists; when a
record exists, it removes the record, closes the record's `EventSource`,
clears the record's armed heartbeat timer, and broadcasts `SSE_DISCONNECTED`
for the route. -/
theorem worker_disconnectRoute_contract_C5 (w : Worker) (route : String) :
    (w.connections.get route = none → w.disconnectRoute route = w) ∧
    (∀ conn, w.connections.get route = some conn →
      ((w.disconnectRoute route).connections.get route = none ∧
       (∀ s ∈ (w.disconnectRoute route).sources, s.sid = conn.sid → s.readyState = 2) ∧
       (∀ tid, conn.timeout = some tid →
         ∀ t ∈ (w.disconnectRoute route).hbTimers, t.tid ≠ tid) ∧
       (w.disconnectRoute route).broadcasts = w.broadcasts ++ [.sseDisconnected route])) := by
  constructor
  · intro h
    simp [Worker.disconnectRoute, h]
  · intro conn h
    obtain ⟨sid, timeout⟩ := conn
    cases timeout with
    | none =>
      refine ⟨?_, ?_, ?_, ?_⟩
      · simp only [Worker.disconnectRoute, h]
        exact SMap.get_del_self _ _
      · intro s hs hsid
        simp only [Worker.disconnectRoute, h] at hs
        exact readyState_of_mem_closeSource hs hsid
      · intro tid htid
        cases htid
      · simp [Worker.disconnectRoute, h]
    | some tid0 =>
      refine ⟨?_, ?_, ?_, ?_⟩
      · simp only [Worker.disconnectRoute, h]
        exact SMap.get_del_self _ _
      · intro s hs hsid
        simp only [Worker.disconnectRoute, h] at hs
        exact readyState_of_mem_closeSource hs hsid
      · intro tid htid t ht
        cases htid
        simp only [Worker.disconnectRoute, h] at ht
        exact tid_ne_of_mem_clearHbTimeout ht
      · simp [Worker.disconnectRoute, h]

/-- C5 witness: the contract applied to the worker after `CONNECT /r` and a
successful `open` (record `⟨0, some 0⟩`), and the no-op case at `init`. -/
theorem worker_disconnectRoute_contract_C5_witness :
    ((Worker.run [.msgConnect "/r", .esOpen 0]).disconnectRoute "/r").connections.get "/r" = none ∧
    ((Worker.run [.msgConnect "/r", .esOpen 0]).disconnectRoute "/r").broadcasts
      = (Worker.run [.msgConnect "/r", .esOpen 0]).broadcasts ++ [.sseDisconnected "/r"] ∧
    (∀ t ∈ ((Worker.run [.msgConnect "/r", .esOpen 0]).disconnectRoute "/r").hbTimers,
      t.tid ≠ 0) ∧
    Worker.init.disconnectRoute "/none" = Worker.init := by
  have h := worker_disconnectRoute_contract_C5 (Worker.run [.msgConnect "/r", .esOpen 0]) "/r"
  refine ⟨(h.2 ⟨0, some 0⟩ (by decide)).1, (h.2 ⟨0, some 0⟩ (by decide)).2.2.2,
    (h.2 ⟨0, some 0⟩ (by decide)).2.2.1 0 rfl,
    (worker_disconnectRoute_contract_C5 Worker.init "/none").1 (by decide)⟩

/-- `disconnectRoute` never touches the scheduled reconnect callbacks. -/
theorem disconnectRoute_pendingReconnects (w : Worker) (route : String) :
    (w.disconnectRoute route).pendingReconnects = w.pendingReconnects := by
  cases h : w.connections.get route with
  | none => simp [Worker.disconnectRoute, h]
  | some conn =>
    obtain ⟨sid, timeout⟩ := conn
    cases timeout <;> simp [Worker.disconnectRoute, h]

/-- A record surviving `disconnectRoute route` was already present and is not
keyed by `route`. -/
theorem mem_connections_disconnectRoute {w : Worker} {route : String} {p : String × WConn}
    (hp : p ∈ (w.disconnectRoute route).connections) : p ∈ w.connections ∧ p.1 ≠ route := by
  cases h : w.connections.get route with
  | none =>
    rw [Worker.disconnectRoute, h] at hp
    exact ⟨hp, (SMap.get_eq_none_iff _ _).1 h p hp⟩
  | some conn =>
    obtain ⟨sid, timeout⟩ := conn
    cases timeout with
    | none =>
      simp only [Worker.disconnectRoute, h] at hp
      exact SMap.mem_del.1 hp
    | some tid0 =>
      simp only [Worker.disconnectRoute, h] at hp
      exact SMap.mem_del.1 hp

/-- Folding `disconnectRoute` over a key list covering every record empties
the connection map. -/
theorem foldl_disconnectRoute_connections (ks : List String) (w : Worker)
    (h : ∀ p ∈ w.connections, p.1 ∈ ks) :
    (ks.foldl (fun acc r => acc.disconnectRoute r) w).connections = [] := by
  induction ks generalizing w with
  | nil =>
    cases hc : w.connections with
    | nil => simpa [List.foldl] using hc
    | cons p rest => exact absurd (h p (by simp [hc])) (by simp)
  | cons k ks ih =>
    simp only [List.foldl]
    apply ih
    intro p hp
    obtain ⟨hpm, hpk⟩ := mem_connections_disconnectRoute hp
    rcases List.mem_cons.1 (h p hpm) with h1 | h1
    · exact absurd h1 hpk
    · exact h1

/-- Folding `disconnectRoute` never touches the scheduled reconnects. -/
theorem foldl_disconnectRoute_pending (ks : List String) (w : Worker) :
    (ks.foldl (fun acc r => acc.disconnectRoute r) w).pendingReconnects = w.pendingReconnects := by
  induction ks generalizing w with
  | nil => rfl
  | cons k ks ih => simp only [List.foldl, ih, disconnectRoute_pendingReconnects]

/-- C3 (amended).  Closing a route cancels the record's armed heartbeat timer
and `disconnectAll` leaves zero active records; but pending reconnect timers
are never tracked, so neither `disconnectRoute` nor `disconnectAll` cancels
them — the scheduled callbacks survive unchanged (and, as the counterexample
shows, later fire and re-create a connection for the abandoned route). -/
theorem worker_close_cancellation_C3 (w : Worker) (route : String) :
    w.disconnectAll.connections = [] ∧
    w.disconnectAll.pendingReconnects = w.pendingReconnects ∧
    (w.disconnectRoute route).pendingReconnects = w.pendingReconnects ∧
    (∀ conn, w.connections.get route = some conn → ∀ tid, conn.timeout = some tid →
      ∀ t ∈ (w.disconnectRoute route).hbTimers, t.tid ≠ tid) := by
  refine ⟨?_, ?_, disconnectRoute_pendingReconnects w route, ?_⟩
  · exact foldl_disconnectRoute_connections _ w (fun p hp => SMap.mem_keys_of_mem hp)
  · exact foldl_disconnectRoute_pending _ w
  · intro conn h tid htid t ht
    obtain ⟨sid, timeout⟩ := conn
    cases htid
    simp only [Worker.disconnectRoute, h] at ht
    exact tid_ne_of_mem_clearHbTimeout ht

/-- C3 witness: at the worker state after `CONNECT /r` and `open` (record
`⟨0, some 0⟩`, one armed heartbeat timer, one source), closing the route
leaves no timer with id 0, and `disconnectAll` of the state reached after an
error both empties the records and keeps the pending reconnect scheduled. -/
theorem worker_close_cancellation_C3_witness :
    (∀ t ∈ ((Worker.run [.msgConnect "/r", .esOpen 0]).disconnectRoute "/r").hbTimers,
      t.tid ≠ 0) ∧
    (Worker.run [.msgConnect "/r", .esOpen 0]).disconnectAll.connections = [] ∧
    (Worker.run [.msgConnect "/a", .esError 0]).disconnectAll.pendingReconnects
      = (Worker.run [.msgConnect "/a", .esError 0]).pendingReconnects := by
  refine ⟨?_, ?_, ?_⟩
  · exact (worker_close_cancellation_C3 (Worker.run [.msgConnect "/r", .esOpen 0]) "/r").2.2.2
      ⟨0, some 0⟩ (by decide) 0 rfl
  · exact (worker_close_cancellation_C3 (Worker.run [.msgConnect "/r", .esOpen 0]) "/r").1
  · exact (worker_close_cancellation_C3 (Worker.run [.msgConnect "/a", .esError 0]) "/a").2.1

/-- Re-arming the heartbeat on a transport `open`: the current record gets a
fresh timer id and a 15000 ms timer joins the armed pool. -/
theorem step_esOpen_arms (w : Worker) (sid : Nat) (s : ESource) (conn : WConn)
    (hs : w.getSource sid = some s) (h0 : s.readyState = 0)
    (hc : w.connections.get s.route = some conn) :
    (w.step (.esOpen sid)).connections.get s.route = some ⟨conn.sid, some w.nextTid⟩ ∧
    (⟨w.nextTid, s.route, sid, 15000⟩ : HbTimer) ∈ (w.step (.esOpen sid)).hbTimers := by
  obtain ⟨csid, ctimeout⟩ := conn
  simp only [Worker.step, hs]
  rw [if_pos h0]
  cases ctimeout <;>
    simp [Worker.resetHeartbeatTimeout, hc, SMap.get_set_self]

theorem step_esMessage_arms (w : Worker) (sid : Nat) (data : String) (s : ESource) (conn : WConn)
    (hs : w.getSource sid = some s) (h1 : s.readyState = 1)
    (hc : w.connections.get s.route = some conn) :
    (w.step (.esMessage sid data)).connections.get s.route = some ⟨conn.sid, some w.nextTid⟩ ∧
    (⟨w.nextTid, s.route, sid, 15000⟩ : HbTimer) ∈ (w.step (.esMessage sid data)).hbTimers := by
  obtain ⟨csid, ctimeout⟩ := conn
  simp only [Worker.step, hs]
  rw [if_pos h1]
  cases ctimeout <;>
    simp [Worker.resetHeartbeatTimeout, hc, SMap.get_set_self]

theorem stall_error_eq (w : Worker) (route : String) (sid tid : Nat)
    (hc : w.connections.get route = some ⟨sid, some tid⟩)
    (ht : w.hbTimers.find? (fun t => t.tid == tid) = some ⟨tid, route, sid, 15000⟩)
    (hs : w.getSource sid = some ⟨sid, route, 1⟩) :
    (w.step (.hbFire tid)).connections = (w.step (.esError sid)).connections ∧
    (w.step (.hbFire tid)).sources = (w.step (.esError sid)).sources ∧
    (w.step (.hbFire tid)).hbTimers = (w.step (.esError sid)).hbTimers ∧
    (w.step (.hbFire tid)).pendingReconnects = (w.step (.esError sid)).pendingReconnects ∧
    (w.step (.hbFire tid)).pendingReconnects = w.pendingReconnects ++ [(route, 5000)] ∧
    (w.step (.hbFire tid)).broadcasts = w.broadcasts ++ [.sseDisconnected route] ∧
    (w.step (.esError sid)).broadcasts = w.broadcasts ++ [.sseError route, .sseDisconnected route] ∧
    (w.step (.hbFire tid)).connections.get route = none := by
  simp only [Worker.step, ht, hs]
  simp [Worker.handleReconnect, Worker.disconnectRoute, hc, clearHbTimeout_idem,
    closeSource_idem, SMap.get_del_self]

def hbDurationsOk (w : Worker) : Prop := ∀ t ∈ w.hbTimers, t.duration = 15000

theorem mem_hbTimers_disconnectRoute {w : Worker} {route : String} {t : HbTimer}
    (h : t ∈ (w.disconnectRoute route).hbTimers) : t ∈ w.hbTimers := by
  cases hc : w.connections.get route with
  | none => rw [Worker.disconnectRoute, hc] at h; exact h
  | some conn =>
    obtain ⟨sid, timeout⟩ := conn
    cases timeout with
    | none => simp only [Worker.disconnectRoute, hc] at h; exact h
    | some tid0 =>
      simp only [Worker.disconnectRoute, hc, clearHbTimeout] at h
      exact (List.mem_filter.1 h).1

theorem mem_hbTimers_foldl_disconnectRoute {t : HbTimer} (ks : List String) (w : Worker)
    (h : t ∈ (ks.foldl (fun acc r => acc.disconnectRoute r) w).hbTimers) : t ∈ w.hbTimers := by
  induction ks generalizing w with
  | nil => exact h
  | cons k ks ih => exact mem_hbTimers_disconnectRoute (ih _ h)

theorem mem_hbTimers_resetHeartbeatTimeout {w : Worker} {route : String} {sid : Nat} {t : HbTimer}
    (h : t ∈ (w.resetHeartbeatTimeout route sid).hbTimers) :
    t ∈ w.hbTimers ∨ t.duration = 15000 := by
  cases hc : w.connections.get route with
  | none => rw [Worker.resetHeartbeatTimeout, hc] at h; exact Or.inl h
  | some conn =>
    obtain ⟨csid, ctimeout⟩ := conn
    cases ctimeout with
    | none =>
      simp only [Worker.resetHeartbeatTimeout, hc, List.mem_append] at h
      rcases h with h | h
      · exact Or.inl h
      · simp at h; subst h; exact Or.inr rfl
    | some tid0 =>
      simp only [Worker.resetHeartbeatTimeout, hc, List.mem_append, clearHbTimeout] at h
      rcases h with h | h
      · exact Or.inl (List.mem_filter.1 h).1
      · simp at h; subst h; exact Or.inr rfl

theorem mem_hbTimers_handleReconnect {w : Worker} {route : String} {t : HbTimer}
    (h : t ∈ (w.handleReconnect route).hbTimers) : t ∈ w.hbTimers :=
  mem_hbTimers_disconnectRoute (by simpa [Worker.handleReconnect] using h)

theorem step_preserves_hbDurationsOk (w : Worker) (e : Worker.Ev) (hw : hbDurationsOk w) :
    hbDurationsOk (w.step e) := by
  intro t ht
  cases e with
  | msgConnect route =>
    simp only [Worker.step, Worker.createEventSource] at ht
    split at ht
    · exact hw t ht
    · exact hw t ht
  | msgDisconnect route =>
    exact hw t (mem_hbTimers_disconnectRoute ht)
  | msgDisconnectAll =>
    exact hw t (mem_hbTimers_foldl_disconnectRoute _ _ ht)
  | esOpen sid =>
    simp only [Worker.step] at ht
    split at ht
    · split at ht
      · rcases mem_hbTimers_resetHeartbeatTimeout ht with h | h
        · exact hw t h
        · exact h
      · exact hw t ht
    · exact hw t ht
  | esMessage sid data =>
    simp only [Worker.step] at ht
    split at ht
    · split at ht
      · rcases mem_hbTimers_resetHeartbeatTimeout ht with h | h
        · exact hw t h
        · exact h
      · exact hw t ht
    · exact hw t ht
  | esError sid =>
    simp only [Worker.step] at ht
    split at ht
    · split at ht
      · have h2 := mem_hbTimers_handleReconnect ht
        exact hw t h2
      · exact hw t ht
    · exact hw t ht
  | hbFire tid =>
    simp only [Worker.step] at ht
    split at ht
    · have h' := mem_hbTimers_handleReconnect ht
      simp only [clearHbTimeout] at h'
      exact hw t (List.mem_filter.1 h').1
    · exact hw t ht
  | reconnectFire i =>
    simp only [Worker.step, Worker.createEventSource] at ht
    split at ht
    · exact hw t ht
    · exact hw t ht

theorem run_hbDurationsOk (evs : List Worker.Ev) : hbDurationsOk (Worker.run evs) := by
  have main : ∀ (l : List Worker.Ev) (w : Worker), hbDurationsOk w →
      hbDurationsOk (l.foldl Worker.step w) := by
    intro l
    induction l with
    | nil => intro w hw; exact hw
    | cons e l ih =>
      intro w hw
      exact ih _ (step_preserves_hbDurationsOk w e hw)
  exact main evs Worker.init (by intro t ht; cases ht)

/-- C6.  The heartbeat monitor contract of the worker: (i) on every `open` of
a `CONNECTING` source the current record is re-armed with a fresh 15000 ms
timer; (ii) likewise on every `message` of an `OPEN` source; (iii) every
armed heartbeat timer in any reachable worker state has duration 15000 ms
(threshold T = 15 s); (iv) a heartbeat firing for the current record's timer
produces exactly the state of a transport error on the record's source —
same connections, sources, timers and scheduled reconnect (delay 5000 ms ≥
the 5000 ms initial delay) — the broadcasts differing only in that the error
path additionally emits `SSE_ERROR` before the stall-triggered
`SSE_DISCONNECTED`. -/
theorem worker_heartbeat_contract_C6 (w : Worker) :
    (∀ sid s conn, w.getSource sid = some s → s.readyState = 0 →
      w.connections.get s.route = some conn →
      ((w.step (.esOpen sid)).connections.get s.route = some ⟨conn.sid, some w.nextTid⟩ ∧
       (⟨w.nextTid, s.route, sid, 15000⟩ : HbTimer) ∈ (w.step (.esOpen sid)).hbTimers)) ∧
    (∀ sid data s conn, w.getSource sid = some s → s.readyState = 1 →
      w.connections.get s.route = some conn →
      ((w.step (.esMessage sid data)).connections.get s.route = some ⟨conn.sid, some w.nextTid⟩ ∧
       (⟨w.nextTid, s.route, sid, 15000⟩ : HbTimer) ∈ (w.step (.esMessage sid data)).hbTimers)) ∧
    (∀ evs : List Worker.Ev, hbDurationsOk (Worker.run evs)) ∧
    (∀ route sid tid, w.connections.get route = some ⟨sid, some tid⟩ →
      w.hbTimers.find? (fun t => t.tid == tid) = some ⟨tid, route, sid, 15000⟩ →
      w.getSource sid = some ⟨sid, route, 1⟩ →
      ((w.step (.hbFire tid)).connections = (w.step (.esError sid)).connections ∧
       (w.step (.hbFire tid)).sources = (w.step (.esError sid)).sources ∧
       (w.step (.hbFire tid)).hbTimers = (w.step (.esError sid)).hbTimers ∧
       (w.step (.hbFire tid)).pendingReconnects = (w.step (.esError sid)).pendingReconnects ∧
       (w.step (.hbFire tid)).pendingReconnects = w.pendingReconnects ++ [(route, 5000)] ∧
       (w.step (.hbFire tid)).broadcasts = w.broadcasts ++ [.sseDisconnected route] ∧
       (w.step (.esError sid)).broadcasts
         = w.broadcasts ++ [.sseError route, .sseDisconnected route] ∧
       (w.step (.hbFire tid)).connections.get route = none)) := by
  refine ⟨?_, ?_, run_hbDurationsOk, ?_⟩
  · intro sid s conn hs h0 hc
    exact step_esOpen_arms w sid s conn hs h0 hc
  · intro sid data s conn hs h1 hc
    exact step_esMessage_arms w sid data s conn hs h1 hc
  · intro route sid tid hc ht hs
    exact stall_error_eq w route sid tid hc ht hs

/-- C6 witness: the heartbeat contract applied to concrete worker states —
arming on `open` after `CONNECT /r`, re-arming on `message` after the `open`,
the 15000 ms duration of the armed timer, and the stall/error equivalence at
the opened state. -/
theorem worker_heartbeat_contract_C6_witness :
    ((Worker.run [.msgConnect "/r"]).step (.esOpen 0)).connections.get "/r"
      = some ⟨0, some 0⟩ ∧
    (⟨1, "/r", 0, 15000⟩ : HbTimer) ∈
      ((Worker.run [.msgConnect "/r", .esOpen 0]).step (.esMessage 0 "x")).hbTimers ∧
    (∀ t ∈ (Worker.run [.msgConnect "/r", .esOpen 0]).hbTimers, t.duration = 15000) ∧
    ((Worker.run [.msgConnect "/r", .esOpen 0]).step (.hbFire 0)).broadcasts
      = (Worker.run [.msgConnect "/r", .esOpen 0]).broadcasts ++ [.sseDisconnected "/r"] := by
  refine ⟨?_, ?_, ?_, ?_⟩
  · exact ((worker_heartbeat_contract_C6 (Worker.run [.msgConnect "/r"])).1
      0 ⟨0, "/r", 0⟩ ⟨0, none⟩ (by decide) rfl (by decide)).1
  · exact ((worker_heartbeat_contract_C6 (Worker.run [.msgConnect "/r", .esOpen 0])).2.1
      0 "x" ⟨0, "/r", 1⟩ ⟨0, some 0⟩ (by decide) rfl (by decide)).2
  · exact (worker_heartbeat_contract_C6 Worker.init).2.2.1 [.msgConnect "/r", .esOpen 0]
  · exact ((worker_heartbeat_contract_C6 (Worker.run [.msgConnect "/r", .esOpen 0])).2.2.2
      "/r" 0 0 (by decide) (by decide) (by decide)).2.2.2.2.2.1

/-- C7 (amended).  Dispatch in the SharedWorker adapter: a catch-all handler
is invoked exactly on `SSE_MESSAGE` broadcasts; an object handler set is
invoked only through its `message` method on `SSE_MESSAGE` (silently skipped
when unset); `SSE_OPEN`, `SSE_ERROR`, `SSE_DISCONNECTED` and `SSE_RECONNECT`
broadcasts invoke no registered handler at all — named `open`/`error`/`close`
methods are never called. -/
theorem client_dispatch_C7 (t : WorkerClientState) (route data : String) :
    (WorkerClient.onWorkerMessage (.sseMessage route data) t).2.1
      = (match (t.messageHandlers.get route).join with
         | some .single => [.catchAll data]
         | some (.hset hasMessage _ _ _) =>
            if hasMessage then [.named "message" data] else []
         | none => []) ∧
    (WorkerClient.onWorkerMessage (.sseOpen route) t).2.1 = [] ∧
    (WorkerClient.onWorkerMessage (.sseError route) t).2.1 = [] ∧
    (WorkerClient.onWorkerMessage (.sseDisconnected route) t).2.1 = [] ∧
    (WorkerClient.onWorkerMessage (.sseReconnect route) t).2.1 = [] := by
  refine ⟨?_, rfl, rfl, rfl, rfl⟩
  cases h : t.messageHandlers.get route with
  | none => simp [WorkerClient.onWorkerMessage, h, Option.join]
  | some v =>
    cases v with
    | none => simp [WorkerClient.onWorkerMessage, h, Option.join]
    | some hdl =>
      cases hdl with
      | single => simp [WorkerClient.onWorkerMessage, h, Option.join]
      | hset a b c d => simp [WorkerClient.onWorkerMessage, h, Option.join]

/-- C8 (amended).  `disconnect(route)` removes the calling consumer's handler
set and posts `DISCONNECT`; the worker then unconditionally removes (and
closes) the route's shared connection — for every worker state, whatever
handler sets other consumers still hold.  Reference counting exists only at
the level of whole client ports (`onmessageerror` + `clients.size === 0`),
not per-route subscribers. -/
theorem worker_disconnect_unconditional_C8 (w : Worker) (route : String)
    (t : WorkerClientState) :
    (Worker.step w (.msgDisconnect route)).connections.get route = none ∧
    (WorkerClient.disconnect route t).1.messageHandlers.get route = none ∧
    (WorkerClient.disconnect route t).2 = [.disconnectReq route] := by
  refine ⟨?_, SMap.get_del_self _ _, rfl⟩
  show (w.disconnectRoute route).connections.get route = none
  cases h : w.connections.get route with
  | none => rw [Worker.disconnectRoute, h]; exact h
  | some conn =>
    obtain ⟨sid, timeout⟩ := conn
    cases timeout <;> simp only [Worker.disconnectRoute, h] <;> exact SMap.get_del_self _ _
namespace SSEConnectionManager

theorem updateConnectionStatus_connections (route : String) (m : SSEConnectionManager) :
    (m.updateConnectionStatus route).connections = m.connections := rfl

theorem handleError_connections_length (route : String) (m : SSEConnectionManager) :
    (m.handleError route).connections.length ≤ m.connections.length := by
  cases h : m.connections.get route with
  | none => rw [handleError, h]
  | some sid =>
    have hc : (m.handleError route).connections = m.connections.del route := by
      simp [handleError, h, updateConnectionStatus]
    rw [hc]
    exact SMap.length_del_le _ _

theorem connect_connections_size (valid : String → Bool) (route : String)
    (m : SSEConnectionManager) (h : m.connections.size ≤ m.maxConnections) :
    (connect valid route m).connections.size ≤ m.maxConnections := by
  rw [connect]
  by_cases hs : m.connections.size ≥ m.maxConnections
  · rw [if_pos hs]; exact h
  · rw [if_neg hs]
    by_cases hp : (m.connections.get route).isSome
    · rw [if_pos hp]; exact h
    · rw [if_neg hp]
      have hnone : m.connections.get route = none := Option.not_isSome_iff_eq_none.1 hp
      by_cases hv : valid route
      · rw [connectTry, if_pos hv]
        have : ((m.connections.set route m.nextSid)).length = m.connections.length + 1 :=
          SMap.length_set_absent _ _ _ hnone
        simp only [SMap.size] at hs ⊢
        change (m.connections.set route m.nextSid).length ≤ m.maxConnections
        omega
      · rw [connectTry, if_neg hv]
        calc (m.handleError route).connections.length ≤ m.connections.length :=
              handleError_connections_length route m
          _ ≤ m.maxConnections := h

theorem disconnect_connections_length (route : String) (m : SSEConnectionManager) :
    (m.disconnect route).connections.length ≤ m.connections.length := by
  cases h : m.connections.get route with
  | none => rw [disconnect, h]
  | some sid =>
    have hc : (m.disconnect route).connections = m.connections.del route := by
      simp [disconnect, h]
    rw [hc]
    exact SMap.length_del_le _ _

theorem foldl_disconnect_connections_length (ks : List String) (m : SSEConnectionManager) :
    (ks.foldl (fun acc r => acc.disconnect r) m).connections.length ≤ m.connections.length := by
  induction ks generalizing m with
  | nil => exact le_refl _
  | cons k ks ih =>
    exact le_trans (ih (m.disconnect k)) (disconnect_connections_length k m)

end SSEConnectionManager


/-- C9 (amended).  Opening an invalid route creates no connection record and
leaves every previously-opened route untouched — `connect` returns with the
manager state completely unchanged — but no `ConnectionError` is surfaced to
the caller: the `EventSource` constructor exception is swallowed by
`connect`'s `catch` (whose `handleError` is a no-op when no record exists).
-/
theorem manager_invalid_route_noop_C9 (valid : String → Bool) (m : SSEConnectionManager)
    (route : String) (hv : valid route = false) (ha : m.connections.get route = none) :
    SSEConnectionManager.connect valid route m = m := by
  rw [SSEConnectionManager.connect]
  by_cases hsize : m.connections.size ≥ m.maxConnections
  · rw [if_pos hsize]
  · rw [if_neg hsize, ha]
    simp only [Option.isSome_none, Bool.false_eq_true, if_false]
    rw [SSEConnectionManager.connectTry, hv]
    simp only [Bool.false_eq_true, if_false]
    rw [SSEConnectionManager.handleError, ha]


/-- C9 witness: the amended no-op applied to a fresh manager and a route the
`EventSource` constructor rejects. -/
theorem manager_invalid_route_noop_C9_witness :
    SSEConnectionManager.connect (fun r => r == "/api/ok") "/nope" SSEConnectionManager.init
      = SSEConnectionManager.init :=
  manager_invalid_route_noop_C9 (fun r => r == "/api/ok") SSEConnectionManager.init "/nope"
    (by decide) (by decide)

/-- C10.  The `maxConnections` guard: when the connection map already holds
at least `maxConnections` entries, `connect` is a silent no-op returning the
state unchanged (no record, no status entry, no error); and the number of
active connections never exceeds `maxConnections` across any manager event.
-/
theorem manager_maxConnections_C10 (valid : String → Bool) (m : SSEConnectionManager)
    (route : String) (e : SSEConnectionManager.Ev) :
    (m.connections.size ≥ m.maxConnections →
      SSEConnectionManager.connect valid route m = m) ∧
    (m.connections.size ≤ m.maxConnections →
      (SSEConnectionManager.step valid m e).connections.size ≤ m.maxConnections) := by
  constructor
  · intro h
    rw [SSEConnectionManager.connect, if_pos h]
  · intro h
    cases e with
    | connect r => exact SSEConnectionManager.connect_connections_size valid r m h
    | srcOpen r =>
      simp only [SSEConnectionManager.step]
      split
      · split
        · exact h
        · exact h
      · exact h
    | srcError r =>
      exact le_trans (SSEConnectionManager.handleError_connections_length r m) h
    | reconnectFire i =>
      simp only [SSEConnectionManager.step]
      split
      · exact SSEConnectionManager.connect_connections_size valid _ _ h
      · exact h
    | disconnect r =>
      exact le_trans (SSEConnectionManager.disconnect_connections_length r m) h
    | disconnectAll =>
      exact le_trans (SSEConnectionManager.foldl_disconnect_connections_length _ m) h

/-- C10 witness: a manager holding its six default connections — a seventh
`connect` returns the state unchanged and the bound is kept. -/
theorem manager_maxConnections_C10_witness :
    SSEConnectionManager.connect (fun _ => true) "/g"
        (SSEConnectionManager.run (fun _ => true)
          [.connect "/a", .connect "/b", .connect "/c",
           .connect "/d", .connect "/e", .connect "/f"])
      = SSEConnectionManager.run (fun _ => true)
          [.connect "/a", .connect "/b", .connect "/c",
           .connect "/d", .connect "/e", .connect "/f"] ∧
    (SSEConnectionManager.step (fun _ => true)
        (SSEConnectionManager.run (fun _ => true)
          [.connect "/a", .connect "/b", .connect "/c",
           .connect "/d", .connect "/e", .connect "/f"])
        (.connect "/g")).connections.size ≤ 6 := by
  refine ⟨?_, ?_⟩
  · exact (manager_maxConnections_C10 (fun _ => true)
      (SSEConnectionManager.run (fun _ => true)
        [.connect "/a", .connect "/b", .connect "/c",
         .connect "/d", .connect "/e", .connect "/f"]) "/g" (.connect "/g")).1 (by decide)
  · exact (manager_maxConnections_C10 (fun _ => true)
      (SSEConnectionManager.run (fun _ => true)
        [.connect "/a", .connect "/b", .connect "/c",
         .connect "/d", .connect "/e", .connect "/f"]) "/g" (.connect "/g")).2 (by decide)
